import Mathlib

/-!
Verification of the twitchWrapper credential-lifecycle core.

The definitions below are a shallow embedding of the JavaScript source:
  * utils/tokenStorage.js  — encrypt / decrypt / saveTokens / loadTokens /
    deleteTokens / needsRefresh / TokenManager
  * routes/twitch.js       — pollForAccessToken / manageKeepAlive /
    manageTwitchLogin (its branch structure)
  * utils/serverUtils.js   — onServerShutdown

Times are epoch milliseconds as `Nat`.  JavaScript arithmetic that can go
negative is modelled with `Int`.  Node library primitives that the source
calls (crypto.createCipher, JSON.stringify) are modelled by executable
Lean functions whose doc comments state exactly which behaviour of the
primitive the model captures.
-/

namespace TwitchWrapper

/-! ## Data model -/

/-- The versioned structure `saveTokens` serialises to disk (the
`dataToSave` object literal in tokenStorage.js). -/
structure StoredToken where
  access_token : String
  refresh_token : String
  expires_in : Nat
  expires_at : Nat
  scopes : Option String
  saved_at : Nat
deriving DecidableEq, Repr

/-- The shape `saveTokens` reads from its argument: the fields
`access_token`, `refresh_token`, `expires_in` and `scope` (the Twitch
token-endpoint response carries `scope`; a stored record carries `scopes`
instead, so reading `.scope` on it yields `undefined`, modelled `none`). -/
structure TokenInput where
  access_token : String
  refresh_token : String
  expires_in : Nat
  scope : Option String
deriving DecidableEq, Repr

/-- The device-authorization response (`getUserCode` result):
`{device_code, user_code, verification_uri, expires_in, interval}`. -/
structure DeviceCodeGrant where
  device_code : String
  user_code : String
  verification_uri : String
  expires_in : Nat
  interval : Nat
deriving DecidableEq, Repr

/-- A stored record viewed through the field names `saveTokens` reads:
`.scope` is absent on the stored shape, hence `none`. -/
def inputOfStored (r : StoredToken) : TokenInput :=
  { access_token := r.access_token
    refresh_token := r.refresh_token
    expires_in := r.expires_in
    scope := none }

/-- JavaScript `a || b` on the `scope` field: `undefined` and the empty
string are falsy. -/
def jsOrString (a b : Option String) : Option String :=
  match a with
  | none => b
  | some s => if s = "" then b else some s

/-! ## Constants of tokenStorage.js -/

def TOKEN_FILE : String := ".tokens"

def ENCRYPTION_KEY : String := "your-32-char-secret-key-here!!!"

/-! ## JavaScript String.prototype.split(":") and Array.prototype.join(":")

`decrypt` does `text.split(":")`, drops the first part (the IV) with
`shift()`, and re-joins the rest with `":"`.  We model split/join on
character lists. -/

def splitColonAux : List Char → List Char → List (List Char)
  | [], acc => [acc.reverse]
  | c :: rest, acc =>
    if c = ':' then acc.reverse :: splitColonAux rest []
    else splitColonAux rest (c :: acc)

def joinColonAux : List (List Char) → List Char
  | [] => []
  | [x] => x
  | x :: xs => x ++ ':' :: joinColonAux xs

theorem splitColonAux_ne_nil (l acc : List Char) : splitColonAux l acc ≠ [] := by
  induction l generalizing acc with
  | nil => simp [splitColonAux]
  | cons c rest ih =>
    simp only [splitColonAux]
    split
    · simp
    · exact ih _

theorem joinColonAux_cons (x : List Char) (xs : List (List Char)) (h : xs ≠ []) :
    joinColonAux (x :: xs) = x ++ ':' :: joinColonAux xs := by
  cases xs with
  | nil => exact absurd rfl h
  | cons y ys => rfl

theorem splitColonAux_append (a b : List Char) (acc : List Char) (ha : ':' ∉ a) :
    splitColonAux (a ++ ':' :: b) acc = (acc.reverse ++ a) :: splitColonAux b [] := by
  induction a generalizing acc with
  | nil => simp [splitColonAux]
  | cons c a' ih =>
    have hc : c ≠ ':' := fun h => ha (h ▸ List.mem_cons_self c a')
    have ha' : ':' ∉ a' := fun h => ha (List.mem_cons_of_mem c h)
    simp only [List.cons_append, splitColonAux, if_neg hc, List.append_eq]
    rw [ih _ ha']
    simp

theorem joinColonAux_splitColonAux (l acc : List Char) :
    joinColonAux (splitColonAux l acc) = acc.reverse ++ l := by
  induction l generalizing acc with
  | nil => simp [splitColonAux, joinColonAux]
  | cons c rest ih =>
    simp only [splitColonAux]
    split
    · next hc =>
      rw [joinColonAux_cons _ _ (splitColonAux_ne_nil rest []), ih []]
      simp [hc]
    · next hc =>
      rw [ih (c :: acc)]
      simp

/-! ## The cipher (crypto.createCipher / createDecipher)

The source calls `crypto.createCipher("aes-256-cbc", ENCRYPTION_KEY)`: this
deprecated Node API derives both key and IV from the password alone
(EVP_BytesToKey), so the transformation depends only on (key, plaintext) —
the random IV generated by `encrypt` is never an input to it.  We model the
keyed transformation by an executable injective function with the same
interface properties: deterministic in (key, plaintext), inverted by
`evpDecrypt` under the same key, and failing on input not produced under
the key. -/

def evpEncrypt (key text : String) : String :=
  String.mk (key.data ++ text.data)

def evpDecrypt (key ctext : String) : Option String :=
  if key.data.isPrefixOf ctext.data then
    some (String.mk (ctext.data.drop key.data.length))
  else none

theorem isPrefixOf_append_self (a b : List Char) : a.isPrefixOf (a ++ b) = true := by
  induction a with
  | nil => simp [List.isPrefixOf]
  | cons c a' ih => simp [List.isPrefixOf, ih]

theorem evpDecrypt_evpEncrypt (key text : String) :
    evpDecrypt key (evpEncrypt key text) = some text := by
  simp [evpDecrypt, evpEncrypt, isPrefixOf_append_self, List.drop_left]

/-- tokenStorage.js `encrypt`: generate an IV (here a parameter, standing
for `crypto.randomBytes(16).toString("hex")`), run the password-derived
cipher on the text, and return `ivHex + ":" + cipherHex`. -/
def encrypt (iv text : String) : String :=
  iv ++ ":" ++ evpEncrypt ENCRYPTION_KEY text

/-- tokenStorage.js `decrypt`: split on ":", discard the first part (the
source converts it to a Buffer it never uses — `createDecipher` takes no
IV), re-join the remainder with ":" and run the password-derived
decipher.  A throw is modelled as `none`. -/
def decrypt (text : String) : Option String :=
  evpDecrypt ENCRYPTION_KEY (String.mk (joinColonAux (splitColonAux text.data []).tail))

/-- The part of a stored blob after the IV prefix, as `decrypt` recovers it. -/
def cipherPart (blob : String) : String :=
  String.mk (joinColonAux (splitColonAux blob.data []).tail)

theorem data_ivColonRest (iv c : String) :
    (iv ++ ":" ++ c).data = iv.data ++ ':' :: c.data := by
  have h1 : (iv ++ ":" ++ c).data = iv.data ++ (":" : String).data ++ c.data := by
    simp [String.data_append]
  simp only [h1]
  simp

theorem cipherPart_ivColonRest (iv c : String) (hiv : ':' ∉ iv.data) :
    cipherPart (iv ++ ":" ++ c) = c := by
  rw [cipherPart, data_ivColonRest, splitColonAux_append _ _ _ hiv]
  simp [joinColonAux_splitColonAux]

theorem decrypt_ivColonRest (iv c : String) (hiv : ':' ∉ iv.data) :
    decrypt (iv ++ ":" ++ c) = evpDecrypt ENCRYPTION_KEY c := by
  rw [decrypt, data_ivColonRest, splitColonAux_append _ _ _ hiv]
  simp [joinColonAux_splitColonAux]

theorem cipherPart_encrypt (iv text : String) (hiv : ':' ∉ iv.data) :
    cipherPart (encrypt iv text) = evpEncrypt ENCRYPTION_KEY text :=
  cipherPart_ivColonRest _ _ hiv

theorem decrypt_encrypt (iv text : String) (hiv : ':' ∉ iv.data) :
    decrypt (encrypt iv text) = some text := by
  rw [encrypt, decrypt_ivColonRest _ _ hiv, evpDecrypt_evpEncrypt]

/-! ## Serialization (JSON.stringify / JSON.parse of the token record)

`saveTokens` writes `JSON.stringify(dataToSave)` and `loadTokens` applies
`JSON.parse`.  The claims depend only on the round-trip: we model the pair
by an executable injective serialization of `StoredToken` and its inverse
(a failed `JSON.parse` throw is `none`).  Naturals are written in unary so
that the inverse is provable by elementary induction. -/

def encNat (n : Nat) : List Char := List.replicate n '1' ++ ['#']

def encStr (s : String) : List Char := encNat s.data.length ++ s.data

def encOptStr : Option String → List Char
  | none => ['N']
  | some s => 'S' :: encStr s

def serializeToken (t : StoredToken) : String :=
  String.mk (encStr t.access_token ++ encStr t.refresh_token ++ encNat t.expires_in ++
    encNat t.expires_at ++ encOptStr t.scopes ++ encNat t.saved_at)

def parseNatAux : List Char → Option (Nat × List Char)
  | [] => none
  | c :: rest =>
    if c = '#' then some (0, rest)
    else if c = '1' then
      match parseNatAux rest with
      | some (n, r) => some (n + 1, r)
      | none => none
    else none

def parseStrAux (l : List Char) : Option (String × List Char) :=
  match parseNatAux l with
  | some (n, r) => if n ≤ r.length then some (String.mk (r.take n), r.drop n) else none
  | none => none

def parseOptStrAux : List Char → Option (Option String × List Char)
  | [] => none
  | c :: rest =>
    if c = 'N' then some (none, rest)
    else if c = 'S' then
      match parseStrAux rest with
      | some (s, r) => some (some s, r)
      | none => none
    else none

def parseToken (s : String) : Option StoredToken :=
  match parseStrAux s.data with
  | none => none
  | some (a, r1) =>
    match parseStrAux r1 with
    | none => none
    | some (rt, r2) =>
      match parseNatAux r2 with
      | none => none
      | some (ei, r3) =>
        match parseNatAux r3 with
        | none => none
        | some (ea, r4) =>
          match parseOptStrAux r4 with
          | none => none
          | some (sc, r5) =>
            match parseNatAux r5 with
            | none => none
            | some (sa, r6) =>
              if r6 = [] then
                some { access_token := a, refresh_token := rt, expires_in := ei,
                       expires_at := ea, scopes := sc, saved_at := sa }
              else none

theorem parseNatAux_enc (n : Nat) (rest : List Char) :
    parseNatAux (encNat n ++ rest) = some (n, rest) := by
  induction n with
  | zero => simp [encNat, parseNatAux]
  | succ m ih =>
    have h : encNat (m + 1) ++ rest = '1' :: (encNat m ++ rest) := by
      simp [encNat, List.replicate_succ]
    rw [h]
    simp [parseNatAux, ih]

theorem parseStrAux_enc (s : String) (rest : List Char) :
    parseStrAux (encStr s ++ rest) = some (s, rest) := by
  have h : encStr s ++ rest = encNat s.data.length ++ (s.data ++ rest) := by
    simp [encStr]
  rw [parseStrAux, h, parseNatAux_enc]
  simp [List.take_left, List.drop_left]

theorem parseOptStrAux_enc (o : Option String) (rest : List Char) :
    parseOptStrAux (encOptStr o ++ rest) = some (o, rest) := by
  cases o with
  | none => simp [encOptStr, parseOptStrAux]
  | some s =>
    have h : encOptStr (some s) ++ rest = 'S' :: (encStr s ++ rest) := by
      simp [encOptStr]
    rw [h]
    simp [parseOptStrAux, parseStrAux_enc]

theorem parseToken_serializeToken (t : StoredToken) :
    parseToken (serializeToken t) = some t := by
  have hdata : (serializeToken t).data =
      encStr t.access_token ++ (encStr t.refresh_token ++ (encNat t.expires_in ++
        (encNat t.expires_at ++ (encOptStr t.scopes ++ (encNat t.saved_at ++ []))))) := by
    simp [serializeToken]
  rw [parseToken, hdata]
  simp only [parseStrAux_enc, parseNatAux_enc, parseOptStrAux_enc]
  rfl

/-! ## Filesystem model

The storage layer touches the filesystem through `fs.writeFile`,
`fs.unlink` and `fs.readFile`.  We record the operations a function
performs as a trace of `FsOp` and interpret traces over an association
list from path to content; `rename` is included so that
write-temp-then-rename semantics is expressible. -/

inductive FsOp where
  | writeFile (path : String) (content : String)
  | rename (src dst : String)
  | unlink (path : String)
deriving DecidableEq, Repr

def fsGet (p : String) : List (String × String) → Option String
  | [] => none
  | (q, d) :: rest => if q = p then some d else fsGet p rest

def fsSet (p c : String) : List (String × String) → List (String × String)
  | [] => [(p, c)]
  | (q, d) :: rest => if q = p then (p, c) :: rest else (q, d) :: fsSet p c rest

def fsRemove (p : String) : List (String × String) → List (String × String)
  | [] => []
  | (q, d) :: rest => if q = p then fsRemove p rest else (q, d) :: fsRemove p rest

def fsApplyOp (fs : List (String × String)) : FsOp → List (String × String)
  | .writeFile p c => fsSet p c fs
  | .rename src dst =>
    match fsGet src fs with
    | some c => fsSet dst c (fsRemove src fs)
    | none => fs
  | .unlink p => fsRemove p fs

def fsApply (fs : List (String × String)) : List FsOp → List (String × String)
  | [] => fs
  | op :: rest => fsApply (fsApplyOp fs op) rest

theorem fsGet_fsSet (p c : String) (fs : List (String × String)) :
    fsGet p (fsSet p c fs) = some c := by
  induction fs with
  | nil => simp [fsSet, fsGet]
  | cons qd rest ih =>
    obtain ⟨q, d⟩ := qd
    by_cases h : q = p
    · simp [fsSet, fsGet, h]
    · simp [fsSet, fsGet, h, ih]

theorem fsGet_fsRemove (p : String) (fs : List (String × String)) :
    fsGet p (fsRemove p fs) = none := by
  induction fs with
  | nil => simp [fsRemove, fsGet]
  | cons qd rest ih =>
    obtain ⟨q, d⟩ := qd
    by_cases h : q = p
    · simp [fsRemove, h, ih]
    · simp [fsRemove, fsGet, h, ih]

/-! ## saveTokens / loadTokens / deleteTokens / needsRefresh -/

/-- The `dataToSave` object literal built by `saveTokens`: `expires_at`
and `saved_at` are recomputed from the current time, and `scopes` is
`tokenData.scope || process.env.TWITCH_SCOPES`. -/
def dataToSave (now : Nat) (envScopes : Option String) (t : TokenInput) : StoredToken :=
  { access_token := t.access_token
    refresh_token := t.refresh_token
    expires_in := t.expires_in
    expires_at := now + t.expires_in * 1000
    scopes := jsOrString t.scope envScopes
    saved_at := now }

/-- The filesystem operations `saveTokens` performs: a single direct
`fs.writeFile(TOKEN_FILE, encryptedData)`.  (Its try/catch only logs; a
write error is not propagated.) -/
def saveTokensOps (now : Nat) (envScopes : Option String) (iv : String) (t : TokenInput) :
    List FsOp :=
  [FsOp.writeFile TOKEN_FILE (encrypt iv (serializeToken (dataToSave now envScopes t)))]

/-- The caller-observable outcomes of `loadTokens`.  The JS function
returns an object or `null`; the four cases differ only in logging and in
the `deleteTokens` side effect of the expired branch.  `loadError` covers
every caught error other than ENOENT (decrypt throw, JSON.parse throw). -/
inductive LoadResult where
  | loaded (t : StoredToken)
  | expired
  | noFile
  | loadError
deriving DecidableEq, Repr

/-- `loadTokens`, as a function of the token file's content (`none` =
ENOENT) and the current time. -/
def loadTokensResult (file : Option String) (now : Nat) : LoadResult :=
  match file with
  | none => .noFile
  | some blob =>
    match decrypt blob with
    | none => .loadError
    | some plain =>
      match parseToken plain with
      | none => .loadError
      | some t =>
        if t.expires_at ≠ 0 ∧ now < t.expires_at then .loaded t else .expired

/-- The value `loadTokens` actually returns: the record, or `null` in
every other case. -/
def loadReturn : LoadResult → Option StoredToken
  | .loaded t => some t
  | _ => none

/-- `needsRefresh(tokenData)`: true when `expires_at` is falsy
(absent or 0), otherwise `Date.now() > expires_at - fiveMinutes` with JS
(possibly negative) arithmetic. -/
def fiveMinutesMs : Nat := 5 * 60 * 1000

def needsRefresh (now : Nat) (expiresAt : Option Nat) : Bool :=
  match expiresAt with
  | none => true
  | some e =>
    if e = 0 then true
    else decide ((e : Int) - (fiveMinutesMs : Int) < (now : Int))

/-! ## TokenManager and the login flow branch structure -/

structure ManagerState where
  tokens : Option StoredToken
  isLoaded : Bool
deriving DecidableEq, Repr

/-- `TokenManager.initialize()`: loads from disk at most once per process
lifetime (guarded by `isLoaded`); returns the state and the value the
call yields. -/
def managerInit (s : ManagerState) (file : Option String) (now : Nat) :
    ManagerState × Option StoredToken :=
  if s.isLoaded then (s, s.tokens)
  else
    let r := loadReturn (loadTokensResult file now)
    ({ tokens := r, isLoaded := true }, r)

def getTokens (s : ManagerState) : Option StoredToken := s.tokens

/-- `TokenManager.clearTokens()`: drops the in-memory record; the
accompanying `deleteTokens()` is the `unlink` trace below. -/
def clearTokens (s : ManagerState) : ManagerState := { s with tokens := none }

def clearTokensOps : List FsOp := [FsOp.unlink TOKEN_FILE]

def managerNeedsRefresh (now : Nat) (s : ManagerState) : Bool :=
  match s.tokens with
  | some t => needsRefresh now (some t.expires_at)
  | none => true

/-- The three branches of `manageTwitchLogin` after `initialize()`:
use the stored record as is, try a refresh first, or run the full device
flow (`getUserCode` then `pollForAccessToken`). -/
inductive LoginPath where
  | useExisting
  | tryRefreshFirst
  | fullDeviceFlow
deriving DecidableEq, Repr

def loginDecision (s : ManagerState) (file : Option String) (now : Nat) : LoginPath :=
  let p := managerInit s file now
  match p.2 with
  | some _ => if managerNeedsRefresh now p.1 then .tryRefreshFirst else .useExisting
  | none => .fullDeviceFlow

/-! ## The keep-alive scheduler (manageKeepAlive) -/

/-- The renewal timer `manageKeepAlive` arms: one `setTimeout` for
`(expires_in - 10) * 1000` ms whose returned handle is discarded, so the
program keeps no reference with which to cancel it. -/
structure ArmedTimer where
  delayMs : Int
  handleRetained : Bool
deriving DecidableEq, Repr

def keepAliveTimer (expiresIn : Nat) : ArmedTimer :=
  { delayMs := ((expiresIn : Int) - 10) * 1000, handleRetained := false }

/-- The catch branch of the keep-alive refresh callback:
`tokenManager.clearTokens()` (in-memory drop plus `deleteTokens`), then a
single `setTimeout` of 5000 ms that re-runs `manageTwitchLogin`. -/
structure RefreshFailureStep where
  manager : ManagerState
  fsOps : List FsOp
  retryDelaysMs : List Nat
deriving DecidableEq, Repr

def keepAliveOnRefreshFailure (s : ManagerState) : RefreshFailureStep :=
  { manager := clearTokens s
    fsOps := clearTokensOps
    retryDelaysMs := [5000] }

/-! ## The device-flow polling loop (pollForAccessToken) -/

inductive PollErr where
  | authorizationPending
  | slowDown
  | expiredToken
  | accessDenied
  | networkError
deriving DecidableEq, Repr

/-- Outcome of the n-th POST to the token endpoint.  Twitch signals the
pending / slow-down / expired / denied cases with a non-2xx status, which
axios surfaces as a thrown error: every `err` lands in the loop's catch. -/
inductive PollResp where
  | ok (t : TokenInput)
  | err (e : PollErr)
deriving DecidableEq, Repr

inductive PollOutcome where
  | token (t : TokenInput) (calls : Nat) (waitsMs : List Nat)
  | timeout (calls : Nat) (waitsMs : List Nat)
deriving DecidableEq, Repr

def pollInterval : Nat := 2000

def maxAttempts : Nat := 100

/-- The `while (attempts < maxAttempts)` loop: one request per iteration;
on success return the data; on any error increment `attempts` and wait
`pollInterval * 2` ms.  `calls` counts requests made, `waits` accumulates
the sleeps (in reverse). -/
def pollLoop (e : Nat → PollResp) : Nat → Nat → List Nat → PollOutcome
  | 0, calls, waits => .timeout calls waits.reverse
  | fuel + 1, calls, waits =>
    match e calls with
    | .ok t => .token t (calls + 1) waits.reverse
    | .err _ => pollLoop e fuel (calls + 1) (pollInterval * 2 :: waits)

/-- `pollForAccessToken(userCodeData)`.  The grant's `device_code` goes
into each request body (absorbed here into the response function `e`);
its `interval` field is never read. -/
def pollForAccessToken (_g : DeviceCodeGrant) (e : Nat → PollResp) : PollOutcome :=
  pollLoop e maxAttempts 0 []

def outcomeWaits : PollOutcome → List Nat
  | .token _ _ ws => ws
  | .timeout _ ws => ws

/-- Forgets which error a failed poll response carried, keeping only that
it failed. -/
def eraseErrCode : PollResp → PollResp
  | .ok t => .ok t
  | .err _ => .err PollErr.authorizationPending

/-! ## Shutdown handler (serverUtils.js onServerShutdown) -/

inductive ShutdownStep where
  | logMsg (msg : String)
  | clearTimer (handle : Nat)
  | scheduleExit (delayMs : Nat)
deriving DecidableEq, Repr

/-- The SIGTERM/SIGINT handler: re-entry is suppressed by the
`shutdownInProgress` flag; otherwise it logs and schedules
`process.exit(0)` after 100 ms.  No `clearTimeout` occurs anywhere in the
source. -/
def onServerShutdown (shutdownInProgress : Bool) : List ShutdownStep :=
  if shutdownInProgress then []
  else
    [ShutdownStep.logMsg "SHUTTING DOWN SERVER",
     ShutdownStep.logMsg "Graceful shutdown...",
     ShutdownStep.logMsg "Goodbye!",
     ShutdownStep.scheduleExit 100]

def cancelledHandles (steps : List ShutdownStep) : List Nat :=
  steps.filterMap fun st =>
    match st with
    | ShutdownStep.clearTimer h => some h
    | _ => none

/-- The shutdown sequence cancels every timer of the pending set. -/
def cancelsEveryPendingTimer (steps : List ShutdownStep) (pending : List Nat) : Prop :=
  ∀ h ∈ pending, h ∈ cancelledHandles steps

/-- Write-temp-then-rename semantics for a trace of filesystem
operations targeting `target`. -/
def writesTempThenRename (ops : List FsOp) (target : String) : Prop :=
  ∃ tmp c, tmp ≠ target ∧ ops = [FsOp.writeFile tmp c, FsOp.rename tmp target]

/-! ## Helper lemmas about the polling loop -/

theorem pollLoop_always_pending (e : Nat → PollResp)
    (h : ∀ n, e n = PollResp.err PollErr.authorizationPending) :
    ∀ fuel calls waits, pollLoop e fuel calls waits =
      PollOutcome.timeout (calls + fuel)
        (List.replicate fuel (pollInterval * 2) ++ waits).reverse := by
  intro fuel
  induction fuel with
  | zero => intro calls waits; simp [pollLoop]
  | succ m ih =>
    intro calls waits
    simp only [pollLoop, h calls]
    rw [ih (calls + 1) (pollInterval * 2 :: waits)]
    congr 1
    · omega
    · rw [List.replicate_succ']
      simp

theorem pollLoop_erase (e : Nat → PollResp) :
    ∀ fuel calls waits,
      pollLoop e fuel calls waits = pollLoop (fun n => eraseErrCode (e n)) fuel calls waits := by
  intro fuel
  induction fuel with
  | zero => intro calls waits; rfl
  | succ m ih =>
    intro calls waits
    cases h : e calls with
    | ok t => simp [pollLoop, h, eraseErrCode]
    | err er => simp [pollLoop, h, eraseErrCode, ih]

theorem pollLoop_waits_fixed (e : Nat → PollResp) :
    ∀ fuel calls waits, (∀ w ∈ waits, w = pollInterval * 2) →
      ∀ w ∈ outcomeWaits (pollLoop e fuel calls waits), w = pollInterval * 2 := by
  intro fuel
  induction fuel with
  | zero =>
    intro calls waits hw w hmem
    simp only [pollLoop, outcomeWaits, List.mem_reverse] at hmem
    exact hw w hmem
  | succ m ih =>
    intro calls waits hw w hmem
    cases h : e calls with
    | ok t =>
      simp only [pollLoop, h, outcomeWaits, List.mem_reverse] at hmem
      exact hw w hmem
    | err er =>
      simp only [pollLoop, h] at hmem
      refine ih (calls + 1) (pollInterval * 2 :: waits) ?_ w hmem
      intro x hx
      rcases List.mem_cons.mp hx with hx | hx
      · exact hx
      · exact hw x hx

/-! ## Concrete sample values used by counterexamples and witnesses -/

/-- A valid stored record whose `scopes`, `expires_at` and `saved_at`
differ from what a save at time 5 recomputes. -/
def rSample : StoredToken :=
  { access_token := "a", refresh_token := "r", expires_in := 0, expires_at := 7,
    scopes := some "chat", saved_at := 3 }

def gSample : DeviceCodeGrant :=
  { device_code := "dc", user_code := "uc", verification_uri := "u",
    expires_in := 1800, interval := 5 }

def tokSample : TokenInput :=
  { access_token := "at", refresh_token := "rt", expires_in := 3600, scope := some "chat" }

/-! ## The claims -/

/-- C1 (corrected, counterexample): the round-trip claim fails as stated.
A valid, unexpired record r (here `expires_at` 7 at load time 1) saved
with `saveTokens` and loaded back does not come back equal to r in all
fields: the loaded record has `expires_at` and `saved_at` recomputed from
the save time and `scopes` taken from the absent `.scope` field falling
back to the environment, here `none` instead of r's value. -/
theorem save_load_roundtrip_cex :
    (1 : Nat) < rSample.expires_at ∧
    loadReturn (loadTokensResult
      (fsGet TOKEN_FILE (fsApply [] (saveTokensOps 5 none ("00") (inputOfStored rSample)))) 1) ≠
      some rSample ∧
    loadReturn (loadTokensResult
      (fsGet TOKEN_FILE (fsApply [] (saveTokensOps 5 none ("00") (inputOfStored rSample)))) 1) =
      some { access_token := "a", refresh_token := "r", expires_in := 0,
             expires_at := 5, scopes := none, saved_at := 5 } := by
  decide

/-- C1 (corrected, amended claim): saving a record r and loading before
the recomputed expiry returns a record that keeps r's `access_token`,
`refresh_token` and `expires_in`, while `expires_at` and `saved_at` are
recomputed from the save time and `scopes` is replaced by the
`TWITCH_SCOPES` environment value (r's own `scopes` is not read, since
`saveTokens` reads the absent `.scope` field). -/
theorem save_load_roundtrip_amended (r : StoredToken) (fs : List (String × String))
    (env : Option String) (iv : String) (tSave tLoad : Nat)
    (hiv : ':' ∉ iv.data) (hfresh : tLoad < tSave + r.expires_in * 1000) :
    loadTokensResult (fsGet TOKEN_FILE (fsApply fs (saveTokensOps tSave env iv (inputOfStored r)))) tLoad =
      LoadResult.loaded
        { access_token := r.access_token, refresh_token := r.refresh_token,
          expires_in := r.expires_in, expires_at := tSave + r.expires_in * 1000,
          scopes := env, saved_at := tSave } := by
  have happly : fsApply fs (saveTokensOps tSave env iv (inputOfStored r)) =
      fsSet TOKEN_FILE (encrypt iv (serializeToken (dataToSave tSave env (inputOfStored r)))) fs := rfl
  rw [happly, fsGet_fsSet]
  simp only [loadTokensResult, decrypt_encrypt _ _ hiv, parseToken_serializeToken]
  rw [if_pos]
  · rfl
  · exact ⟨by simp [dataToSave, inputOfStored]; omega, by simpa [dataToSave, inputOfStored] using hfresh⟩

theorem save_load_roundtrip_amended_witness :
    (':' ∉ ("00" : String).data ∧ (1 : Nat) < 5 + rSample.expires_in * 1000) ∧
    loadTokensResult
      (fsGet TOKEN_FILE (fsApply [] (saveTokensOps 5 (some "env") ("00") (inputOfStored rSample)))) 1 =
      LoadResult.loaded { access_token := "a", refresh_token := "r", expires_in := 0,
                          expires_at := 5, scopes := some "env", saved_at := 5 } :=
  ⟨⟨by decide, by decide⟩,
    save_load_roundtrip_amended rSample [] (some "env") ("00") 5 1 (by decide) (by decide)⟩

/-- C2 (corrected, counterexample): on a blob that fails to decrypt,
`loadTokens` does not surface a distinct error: its return value is
`null`, exactly the value returned when no stored blob exists. -/
theorem load_corrupt_blob_cex :
    decrypt ("00:zzzz") = none ∧
    loadReturn (loadTokensResult (some "00:zzzz") 0) = loadReturn (loadTokensResult none 0) := by
  decide

/-- C2 (corrected, amended claim): `loadTokens` catches a decryption
failure instead of raising: the caller receives `null`, the same return
value as when no file exists; the two cases differ only in the logging
branch taken inside the catch (`loadError` vs `noFile`), never in the
returned value. -/
theorem load_corrupt_blob_amended (b : String) (now : Nat) (h : decrypt b = none) :
    loadTokensResult (some b) now = LoadResult.loadError ∧
    loadReturn (loadTokensResult (some b) now) = none ∧
    loadTokensResult none now = LoadResult.noFile ∧
    loadReturn (loadTokensResult none now) = none := by
  simp [loadTokensResult, h, loadReturn]

theorem load_corrupt_blob_amended_witness :
    decrypt ("00:zzzz") = none ∧
    (loadTokensResult (some "00:zzzz") 0 = LoadResult.loadError ∧
      loadReturn (loadTokensResult (some "00:zzzz") 0) = none ∧
      loadTokensResult none 0 = LoadResult.noFile ∧
      loadReturn (loadTokensResult none 0) = none) :=
  ⟨by decide, load_corrupt_blob_amended ("00:zzzz") 0 (by decide)⟩

/-- C3 (corrected, counterexample): `saveTokens` does not use
write-temp-then-rename semantics: its filesystem trace on a concrete
record is a single direct `writeFile` to the token file. -/
theorem save_not_temp_rename_cex :
    saveTokensOps 0 none ("00")
        { access_token := "a", refresh_token := "r", expires_in := 0, scope := none } =
      [FsOp.writeFile TOKEN_FILE (encrypt ("00") (serializeToken (dataToSave 0 none
        { access_token := "a", refresh_token := "r", expires_in := 0, scope := none })))] ∧
    ¬ writesTempThenRename (saveTokensOps 0 none ("00")
        { access_token := "a", refresh_token := "r", expires_in := 0, scope := none })
      TOKEN_FILE := by
  refine ⟨rfl, ?_⟩
  rintro ⟨tmp, c, hne, h⟩
  simp [saveTokensOps] at h

/-- C3 (corrected, amended claim): `saveTokens` writes the encrypted blob
with a single direct in-place `fs.writeFile` to the token file — no
temporary file and no rename — so the previously persisted content is
overwritten rather than swapped. -/
theorem save_in_place_write (now : Nat) (env : Option String) (iv : String)
    (t : TokenInput) (fs : List (String × String)) :
    saveTokensOps now env iv t =
      [FsOp.writeFile TOKEN_FILE (encrypt iv (serializeToken (dataToSave now env t)))] ∧
    ¬ writesTempThenRename (saveTokensOps now env iv t) TOKEN_FILE ∧
    fsGet TOKEN_FILE (fsApply fs (saveTokensOps now env iv t)) =
      some (encrypt iv (serializeToken (dataToSave now env t))) := by
  refine ⟨rfl, ?_, ?_⟩
  · rintro ⟨tmp, c, hne, h⟩
    simp [saveTokensOps] at h
  · exact fsGet_fsSet _ _ _

/-- C4 (confirmed): if the token endpoint reports authorization_pending
on every call, `pollForAccessToken` makes exactly `maxAttempts = 100`
calls (the outcome's call counter counts endpoint invocations) and ends
in the authorization-timeout throw; it never returns a token. -/
theorem bounded_polling (g : DeviceCodeGrant) (e : Nat → PollResp)
    (h : ∀ n, e n = PollResp.err PollErr.authorizationPending) :
    maxAttempts = 100 ∧
    pollForAccessToken g e =
      PollOutcome.timeout 100 (List.replicate 100 (pollInterval * 2)) := by
  refine ⟨rfl, ?_⟩
  rw [pollForAccessToken, pollLoop_always_pending e h maxAttempts 0 []]
  simp [maxAttempts]

theorem bounded_polling_witness :
    maxAttempts = 100 ∧
    pollForAccessToken gSample (fun _ => PollResp.err PollErr.authorizationPending) =
      PollOutcome.timeout 100 (List.replicate 100 (pollInterval * 2)) :=
  bounded_polling gSample _ (fun _ => rfl)

/-- C5 (corrected, counterexample): an access_denied response is not
terminal: after receiving it on the first call, the loop makes a second
call and returns the token it gets, rather than stopping with a failure. -/
theorem poll_terminal_error_cex :
    pollForAccessToken gSample
        (fun n => if n = 0 then PollResp.err PollErr.accessDenied else PollResp.ok tokSample) =
      PollOutcome.token tokSample 2 [pollInterval * 2] := by
  decide

/-- C5 (corrected, amended claim): the polling loop never inspects which
error the token endpoint returned — expired_token, access_denied,
slow_down and network errors are all handled exactly like
authorization_pending (count the attempt, wait the same fixed interval,
continue): replacing every error by authorization_pending leaves the
outcome unchanged. -/
theorem poll_ignores_error_code (g : DeviceCodeGrant) (e : Nat → PollResp) :
    pollForAccessToken g e = pollForAccessToken g (fun n => eraseErrCode (e n)) :=
  pollLoop_erase e maxAttempts 0 []

/-- C6 (corrected, counterexample): for a grant whose server-advised
`interval` is 5, every wait between calls is `pollInterval * 2 = 4000` ms,
which is double the hardcoded 2000 ms poll interval and not double the
grant's advised interval (neither 2·5 s = 10000 ms nor 2·5). -/
theorem poll_interval_cex :
    gSample.interval = 5 ∧
    outcomeWaits (pollForAccessToken gSample
        (fun _ => PollResp.err PollErr.authorizationPending)) =
      List.replicate 100 (pollInterval * 2) ∧
    pollInterval * 2 ≠ 2 * (gSample.interval * 1000) ∧
    pollInterval * 2 ≠ 2 * gSample.interval := by
  refine ⟨by decide, by decide, by decide, by decide⟩

/-- C6 (corrected, amended claim): every wait between consecutive
token-endpoint calls equals `pollInterval * 2 = 4000` ms, a constant
doubling of the hardcoded 2000 ms base; the grant's `interval` field is
never read by the loop. -/
theorem poll_wait_fixed (g : DeviceCodeGrant) (e : Nat → PollResp) :
    ∀ w ∈ outcomeWaits (pollForAccessToken g e), w = pollInterval * 2 :=
  fun w hw => pollLoop_waits_fixed e maxAttempts 0 [] (by simp) w hw

theorem poll_wait_fixed_witness :
    4000 ∈ outcomeWaits (pollForAccessToken gSample (fun _ => PollResp.err PollErr.slowDown)) ∧
    4000 = pollInterval * 2 :=
  ⟨by decide,
    poll_wait_fixed gSample (fun _ => PollResp.err PollErr.slowDown) 4000 (by decide)⟩

/-- C7 (confirmed): `needsRefresh` is a pure function of the current time
and `expires_at`; with the 5-minute margin it is true at
`expires_at = now + 4 min`, false at `expires_at = now + 10 min`, true
whenever expiry is unknown (absent or 0), and in general true exactly when
`expires_at < now + 5 min`. -/
theorem needs_refresh_boundary (now e : Nat) :
    needsRefresh now none = true ∧
    needsRefresh now (some 0) = true ∧
    needsRefresh now (some (now + 4 * 60 * 1000)) = true ∧
    needsRefresh now (some (now + 10 * 60 * 1000)) = false ∧
    (e ≠ 0 → (needsRefresh now (some e) = true ↔ (e : Int) < (now : Int) + (fiveMinutesMs : Int))) := by
  refine ⟨rfl, rfl, ?_, ?_, ?_⟩
  · have h : now + 4 * 60 * 1000 ≠ 0 := by omega
    simp only [needsRefresh, if_neg h, decide_eq_true_eq, fiveMinutesMs]
    push_cast
    omega
  · have h : now + 10 * 60 * 1000 ≠ 0 := by omega
    simp only [needsRefresh, if_neg h, decide_eq_false_iff_not, fiveMinutesMs]
    push_cast
    omega
  · intro h
    simp only [needsRefresh, if_neg h, decide_eq_true_eq]
    omega

theorem needs_refresh_boundary_witness :
    ((1240000 : Nat) ≠ 0) ∧
    (needsRefresh 1000000 (some 1240000) = true ↔
      ((1240000 : Nat) : Int) < ((1000000 : Nat) : Int) + (fiveMinutesMs : Int)) :=
  ⟨by decide, (needs_refresh_boundary 1000000 1240000).2.2.2.2 (by decide)⟩

/-- C8 (confirmed): the refresh-failure branch of the keep-alive callback
clears the manager (so `getTokens` is absent), schedules exactly one
retry at the fixed 5000 ms backoff, and that retry's run of
`manageTwitchLogin` takes the full-device-flow branch (a fresh
authentication from scratch), since both the in-memory record and the
persisted blob are gone. -/
theorem refresh_failure_recovery (s : ManagerState) (fs : List (String × String)) (now : Nat) :
    getTokens (keepAliveOnRefreshFailure s).manager = none ∧
    (keepAliveOnRefreshFailure s).retryDelaysMs = [5000] ∧
    loginDecision (keepAliveOnRefreshFailure s).manager
      (fsGet TOKEN_FILE (fsApply fs (keepAliveOnRefreshFailure s).fsOps)) now =
      LoginPath.fullDeviceFlow := by
  refine ⟨rfl, rfl, ?_⟩
  have hfile : fsGet TOKEN_FILE (fsApply fs (keepAliveOnRefreshFailure s).fsOps) = none := by
    simpa [keepAliveOnRefreshFailure, clearTokensOps, fsApply, fsApplyOp]
      using fsGet_fsRemove TOKEN_FILE fs
  rw [hfile]
  by_cases h : s.isLoaded <;>
    simp [loginDecision, managerInit, clearTokens, keepAliveOnRefreshFailure, h,
      loadTokensResult, loadReturn]

/-- C9 (corrected, counterexample): with one renewal timer pending
(handle 0), the shutdown handler cancels nothing: its step sequence
contains no timer cancellation, and the armed renewal timer's handle was
never retained. -/
theorem shutdown_cancels_nothing_cex :
    (keepAliveTimer 3600).handleRetained = false ∧
    ¬ cancelsEveryPendingTimer (onServerShutdown false) [0] := by
  refine ⟨rfl, ?_⟩
  intro h
  have h0 := h 0 (by decide)
  simp [onServerShutdown, cancelledHandles] at h0

/-- C9 (corrected, amended claim): renewal timers are armed with
`setTimeout` whose handle is discarded, and the shutdown handler cancels
no timers at all — it only logs and schedules `process.exit` 100 ms
later — so pending renewal timers are not cancelled at teardown; they
die only with the process. -/
theorem shutdown_no_timer_cancellation (b : Bool) (n : Nat) :
    cancelledHandles (onServerShutdown b) = [] ∧
    (keepAliveTimer n).handleRetained = false ∧
    (keepAliveTimer n).delayMs = ((n : Int) - 10) * 1000 := by
  cases b <;> simp [onServerShutdown, cancelledHandles, keepAliveTimer]

/-- C10 (confirmed): the random IV is not bound into the cipher: the
ciphertext portion of `encrypt`'s output is the same for any two IVs, and
`decrypt` ignores the IV prefix of a blob — replacing it by any other
(colon-free, i.e. hex-shaped) value leaves the decrypted plaintext
unchanged. -/
theorem iv_not_bound_to_cipher (iv1 iv2 text : String)
    (h1 : ':' ∉ iv1.data) (h2 : ':' ∉ iv2.data) :
    cipherPart (encrypt iv1 text) = cipherPart (encrypt iv2 text) ∧
    decrypt (encrypt iv1 text) = decrypt (encrypt iv2 text) ∧
    decrypt (encrypt iv1 text) = some text ∧
    (∀ c : String, decrypt (iv1 ++ ":" ++ c) = decrypt (iv2 ++ ":" ++ c)) := by
  refine ⟨?_, ?_, decrypt_encrypt _ _ h1, ?_⟩
  · rw [cipherPart_encrypt _ _ h1, cipherPart_encrypt _ _ h2]
  · rw [decrypt_encrypt _ _ h1, decrypt_encrypt _ _ h2]
  · intro c
    rw [decrypt_ivColonRest _ _ h1, decrypt_ivColonRest _ _ h2]

theorem iv_not_bound_to_cipher_witness :
    (':' ∉ ("00" : String).data ∧ ':' ∉ ("ff" : String).data) ∧
    cipherPart (encrypt ("00") ("hi")) = cipherPart (encrypt ("ff") ("hi")) ∧
    decrypt (encrypt ("00") ("hi")) = decrypt (encrypt ("ff") ("hi")) ∧
    decrypt (encrypt ("00") ("hi")) = some "hi" ∧
    decrypt ("00" ++ ":" ++ "zz") = decrypt ("ff" ++ ":" ++ "zz") :=
  ⟨⟨by decide, by decide⟩,
    (iv_not_bound_to_cipher ("00") ("ff") ("hi") (by decide) (by decide)).1,
    (iv_not_bound_to_cipher ("00") ("ff") ("hi") (by decide) (by decide)).2.1,
    (iv_not_bound_to_cipher ("00") ("ff") ("hi") (by decide) (by decide)).2.2.1,
    (iv_not_bound_to_cipher ("00") ("ff") ("hi") (by decide) (by decide)).2.2.2 ("zz")⟩

end TwitchWrapper
